import Mathlib

/-!
# TritonHTTP — verification of the protocol layer

A shallow embedding of the TritonHTTP server's protocol layer and proofs
about it.  The embedding follows the current sources:

* the request parser `ReadRequest` (file `unnamed/part_001`),
* the connection handler `HandleConnection`, the response classifiers
  `HandleGoodRequest` / `HandleOK` / `HandleBadRequest` / `HandleNotFound`
  (file `unnamed/part_000`),
* the Go standard library's `path/filepath.Clean` (slash-separated form),
  which `HandleGoodRequest` calls.

Collaborators that are not part of these sources (`ReadLine`,
`CanonicalHeaderKey`, `FormatTime`, `MIMETypeByExtension`, the filesystem)
are modelled explicitly; each such definition carries a comment saying so.

Strings are Lean `String`s; all string operations are implemented over
`List Char` so that every definition evaluates inside the kernel.
Go maps (`map[string]string`) are association lists with overwrite-on-insert,
matching Go's last-write-wins assignment; lookup of an absent key yields `""`
exactly as in Go.
-/

/-! ## String helpers (Go `strings` package operations used by the sources) -/

/-- Go `strings.HasPrefix s pre`. -/
def goStartsWith (s pre : String) : Bool := pre.toList.isPrefixOf s.toList

/-- Go `strings.HasSuffix s suf`. -/
def goEndsWith (s suf : String) : Bool := suf.toList.isSuffixOf s.toList

/-- Go `strings.Contains s " "`, specialised to a single character. -/
def containsChar (s : String) (c : Char) : Bool := s.toList.any (· == c)

/-- Go `strings.TrimLeft v " "`: strip leading space characters only. -/
def trimLeftSpaces (s : String) : String := ⟨s.toList.dropWhile (· == ' ')⟩

/-- ASCII whitespace, as recognised by Go's `unicode.IsSpace` on ASCII input. -/
def isSpaceGo (c : Char) : Bool :=
  c == ' ' || c == '\t' || c == '\n' || c == '\r' || c == '\x0b' || c == '\x0c'

/-- Go `strings.TrimSpace`, restricted to ASCII whitespace. -/
def goTrimSpace (s : String) : String :=
  ⟨((s.toList.dropWhile isSpaceGo).reverse.dropWhile isSpaceGo).reverse⟩

/-- Helper for `SplitN`: split a character list at the first occurrence of `c`. -/
def splitOnceAux (c : Char) : List Char → Option (List Char × List Char)
  | [] => none
  | a :: rest =>
    if a == c then some ([], rest)
    else
      match splitOnceAux c rest with
      | none => none
      | some (x, y) => some (a :: x, y)

/-- Split a string at the first occurrence of `c`, if any. -/
def splitOnceChar (s : String) (c : Char) : Option (String × String) :=
  match splitOnceAux c s.toList with
  | none => none
  | some (x, y) => some (⟨x⟩, ⟨y⟩)

/-- Go `strings.SplitN s (String.singleton c) n` for `n > 0`: at most `n`
substrings, the last one containing the unsplit remainder. -/
def splitNChar (s : String) (c : Char) : Nat → List String
  | 0 => []
  | 1 => [s]
  | n+2 =>
    match splitOnceChar s c with
    | none => [s]
    | some (a, b) => a :: splitNChar b c (n+1)

/-! ## Go maps -/

/-- A Go `map[string]string`, as an association list without duplicate keys. -/
abbrev Hmap := List (String × String)

/-- Key membership. -/
def mapHas (m : Hmap) (k : String) : Bool := m.any (fun p => p.1 == k)

/-- Go map read `m[k]`: the zero value `""` when the key is absent. -/
def mapGet (m : Hmap) (k : String) : String :=
  match m.find? (fun p => p.1 == k) with
  | some p => p.2
  | none => ""

/-- Go map assignment `m[k] = v`: overwrite the existing entry or append. -/
def mapSet : Hmap → String → String → Hmap
  | [], k, v => [(k, v)]
  | p :: rest, k, v => if p.1 == k then (k, v) :: rest else p :: mapSet rest k v

/-- Go `delete(m, k)`. -/
def mapDel : Hmap → String → Hmap
  | [], _ => []
  | p :: rest, k => if p.1 == k then mapDel rest k else p :: mapDel rest k

/-! ## `path/filepath.Clean`

A port of the Go standard library's lexical path cleaner for
slash-separated paths.  The output buffer is kept in reverse order; the
main loop carries fuel equal to the number of remaining input characters,
which each iteration strictly decreases, so the fuel never runs out. -/

/-- The `..`-backtracking loop of `filepath.Clean`: repeatedly drop the last
kept character until the dropped character is a separator or the buffer
length has come down to `dd`.  `rout` is the kept buffer, reversed. -/
def btLoop (dd : Nat) : List Char → Char → List Char
  | [], _ => []
  | c :: rest, dropped =>
    if dropped == '/' || (c :: rest).length ≤ dd then c :: rest
    else btLoop dd rest c

/-- One `..` backtrack step: drop the last character, then `btLoop`. -/
def backtrack (rout : List Char) (dd : Nat) : List Char :=
  match rout with
  | [] => []
  | c :: rest => btLoop dd rest c

/-- Main loop of `filepath.Clean`.  `remaining` is the unread input,
`rout` the output buffer in reverse, `dd` the index up to which `..` may
not backtrack. -/
def cleanLoop (rooted : Bool) : Nat → List Char → List Char → Nat → List Char
  | 0, _, rout, _ => rout
  | _+1, [], rout, _ => rout
  | fuel+1, c :: rest, rout, dd =>
    if c == '/' then
      cleanLoop rooted fuel rest rout dd
    else if c == '.' && (rest.isEmpty || rest.head? == some '/') then
      cleanLoop rooted fuel rest rout dd
    else if c == '.' && rest.head? == some '.'
        && (rest.tail.isEmpty || rest.tail.head? == some '/') then
      if rout.length > dd then
        cleanLoop rooted fuel rest.tail (backtrack rout dd) dd
      else if !rooted then
        let rout' := if rout.length > 0 then '.' :: '.' :: '/' :: rout else ['.', '.']
        cleanLoop rooted fuel rest.tail rout' rout'.length
      else
        cleanLoop rooted fuel rest.tail rout dd
    else
      let rout₁ := if (rooted && rout.length != 1) || (!rooted && rout.length != 0)
        then '/' :: rout else rout
      let seg := (c :: rest).takeWhile (· != '/')
      let rest' := (c :: rest).dropWhile (· != '/')
      cleanLoop rooted fuel rest' (seg.reverse ++ rout₁) dd

/-- Go `path/filepath.Clean` for slash-separated paths. -/
def goClean (path : String) : String :=
  if path = "" then "."
  else
    let cs := path.toList
    let rooted := cs.head? == some '/'
    let init : List Char := if rooted then ['/'] else []
    let dd : Nat := if rooted then 1 else 0
    let out := (cleanLoop rooted (cs.length + 1) cs init dd).reverse
    if out.isEmpty then "." else ⟨out⟩

theorem goClean_escape : goClean "/root/www/../secret.txt" = "/root/secret.txt" := by decide
theorem goClean_dots : goClean "/www//a/./b/index.html" = "/www/a/b/index.html" := by decide
theorem goClean_relative : goClean "www/../../x" = "../x" := by decide
theorem goClean_rootedDotDot : goClean "/../x" = "/x" := by decide

/-! ## Modelled collaborators -/

/-- Modelled from the spec: `CanonicalHeaderKey` (the canonical header key of
§4.1 and the glossary) is not under `src/`; per the spec, header names are
"canonicalized (hyphen-delimited segments, each capitalized)". -/
def CanonicalHeaderKey (s : String) : String := ⟨canonAux true s.toList⟩
where
  canonAux : Bool → List Char → List Char
  | _, [] => []
  | up, ch :: rest =>
    if ch == '-' then '-' :: canonAux true rest
    else (if up then ch.toUpper else ch.toLower) :: canonAux false rest

/-- Kind of a read failure, as the connection handler distinguishes them:
`io.EOF`, a `net.Error` with `Timeout() == true`, or anything else. -/
inductive IOKind where
  | eof
  | timeout
  | other
deriving DecidableEq

/-- Modelled from the spec: `ReadLine` is not under `src/`.  One stream event
is the result of one `ReadLine` call: either a complete CRLF-terminated line
(stripped of its CRLF), or a read failure (end-of-stream or deadline
exceeded) together with the bytes the failed read had already consumed —
the callers in `src/` test `len(line) != 0` on the error path, so a failed
read can return a nonempty partial line. -/
inductive ReadEvent where
  | line (s : String)
  | fail (got : String) (k : IOKind)
deriving DecidableEq

/-! ## The request parser (`ReadRequest`, file `unnamed/part_001`) -/

/-- The `Request` struct of `request.go`. -/
structure Request where
  method : String
  url : String
  proto : String
  /-- Misc headers excluding "Host" and "Connection", canonical keys. -/
  header : Hmap
  host : String
  close : Bool
deriving DecidableEq

/-- The distinct parse failures `ReadRequest` returns, one per `return`
statement producing an error other than a propagated read error. -/
inductive ParseErr where
  | requestLineFields
  | badMethod
  | emptyField
  | fieldHasSpace
  | badTarget
  | badProto
  | badHeader
  | headerEdgeSpace
  | headerEmptyName
  | headerBadChar
  | missingHost
deriving DecidableEq

/-- The character test of the header-name loop in `ReadRequest`:
`(c < '0' || c > '9') && (c < 'a' || c > 'z') && (c < 'A' || c > 'Z') && c != '-'`. -/
def hcharBad (c : Char) : Bool :=
  (decide (c < '0') || decide (c > '9')) && (decide (c < 'a') || decide (c > 'z'))
    && (decide (c < 'A') || decide (c > 'Z')) && c != '-'

/-- The request-line section of `ReadRequest`: split on single spaces into at
most 3 fields, then the validation chain, in source order. -/
def parseStartLine (line : String) : Except ParseErr (String × String × String) :=
  let fields := splitNChar line ' ' 3
  if fields.length != 3 then .error .requestLineFields
  else
    let f0 := fields.getD 0 ""
    let f1 := fields.getD 1 ""
    let f2 := fields.getD 2 ""
    if f0 != "GET" then .error .badMethod
    else if f0 == "" || f1 == "" || f2 == "" then .error .emptyField
    else if containsChar f0 ' ' || containsChar f1 ' ' || containsChar f2 ' ' then
      .error .fieldHasSpace
    else if !goStartsWith f1 "/" then .error .badTarget
    else if f2 != "HTTP/1.1" then .error .badProto
    else .ok (f0, f1, f2)

/-- Outcome of the header-reading loop of `ReadRequest`: the blank line was
reached (with the accumulated map, host value and the `checkConn` /
`checkHost` flags), or a malformed header, or a propagated read failure. -/
inductive HdrOut where
  | done (hdr : Hmap) (host : String) (checkConn checkHost : Bool)
  | perr (e : ParseErr)
  | ioErr (k : IOKind)
deriving DecidableEq

/-- The header loop of `ReadRequest` (file `unnamed/part_001`), one event per
`ReadLine` call; returns the outcome and the unconsumed stream suffix. -/
def readHeaders : List ReadEvent → Hmap → String → Bool → Bool →
    HdrOut × List ReadEvent
  | [], _, _, _, _ => (.ioErr .eof, [])
  | .fail _ k :: rest, _, _, _, _ => (.ioErr k, rest)
  | .line l :: rest, hdr, host, cc, ch =>
    if l == "" then (.done hdr host cc ch, rest)
    else
      match splitOnceChar l ':' with
      | none => (.perr .badHeader, rest)
      | some (n, v) =>
        if goEndsWith n " " || goStartsWith n " " then (.perr .headerEdgeSpace, rest)
        else if (goTrimSpace n).length == 0 then (.perr .headerEmptyName, rest)
        else if n.toList.any hcharBad then (.perr .headerBadChar, rest)
        else
          let key := CanonicalHeaderKey n
          let value := trimLeftSpaces v
          readHeaders rest (mapSet hdr key value)
            (if key == "Host" then value else host)
            (cc || key == "Connection")
            (ch || key == "Host")

/-- Result of `ReadRequest`: a parsed request, a protocol-level parse error,
or a propagated read error. -/
inductive ReqResult where
  | ok (req : Request)
  | protoErr (e : ParseErr)
  | readErr (k : IOKind)
deriving DecidableEq

/-- Function `ReadRequest` (file `unnamed/part_001`): returns the result, the
`bytesReceived` flag, and the unconsumed stream suffix.  On a failed first
read it returns `len(line) != 0`; after the request line has been read,
`bytesRec` is `true` on every path. -/
def ReadRequest (events : List ReadEvent) : ReqResult × Bool × List ReadEvent :=
  match events with
  | [] => (.readErr .eof, false, [])
  | .fail got k :: rest => (.readErr k, got != "", rest)
  | .line line :: rest =>
    match parseStartLine line with
    | .error e => (.protoErr e, true, rest)
    | .ok (m, target, proto) =>
      match readHeaders rest [] "" false false with
      | (.ioErr k, r') => (.readErr k, true, r')
      | (.perr e, r') => (.protoErr e, true, r')
      | (.done hdr host checkConn checkHost, r') =>
        let close := if checkConn then mapGet hdr "Connection" == "close" else false
        let hdr' := if checkConn then mapDel hdr "Connection" else hdr
        if checkHost then
          (.ok { method := m, url := target, proto := proto,
                 header := mapDel hdr' "Host", host := host, close := close },
           true, r')
        else (.protoErr .missingHost, true, r')

theorem ReadRequest_basic :
    ReadRequest [.line "GET /index.html HTTP/1.1", .line "Host: test",
      .line "Connection: close", .line "Key1: val1", .line ""]
      = (.ok { method := "GET", url := "/index.html", proto := "HTTP/1.1",
               header := [("Key1", "val1")], host := "test", close := true },
         true, []) := by decide

theorem ReadRequest_noExpand :
    ReadRequest [.line "GET / HTTP/1.1", .line "Host: test", .line ""]
      = (.ok { method := "GET", url := "/", proto := "HTTP/1.1",
               header := [], host := "test", close := false },
         true, []) := by decide

theorem ReadRequest_closeTrailingSpace :
    ReadRequest [.line "GET /index.html HTTP/1.1", .line "connection:close  ",
      .line "Host: t", .line ""]
      = (.ok { method := "GET", url := "/index.html", proto := "HTTP/1.1",
               header := [], host := "t", close := false },
         true, []) := by decide

theorem ReadRequest_missingHost :
    ReadRequest [.line "GET /index.html HTTP/1.1", .line ""]
      = (.protoErr .missingHost, true, []) := by decide

theorem ReadRequest_badMethod :
    ReadRequest [.line "GETT /x HTTP/1.1", .line ""]
      = (.protoErr .badMethod, true, [.line ""]) := by decide

/-! ## The response builder and connection handler (file `unnamed/part_000`) -/

/-- The read-only filesystem collaborator (§6): existence, is-directory,
modification time (already formatted) and size of a path. -/
structure Fs where
  fileExists : String → Bool
  isDir : String → Bool
  modTime : String → String
  size : String → Nat

/-- The `Response` struct of `response.go`.  `hasRequest` models whether the
`Request` back-reference is non-nil. -/
structure Response where
  statusCode : Nat
  proto : String
  header : Hmap
  filePath : String
  hasRequest : Bool
deriving DecidableEq

/-- Function `HandleNotFound` (file `unnamed/part_000`): status 404, empty body, nil
request — but the header map is `req.Header` itself (`res.Header = req.Header`),
into which `Date` (and, only when `req.Close` is set, `Connection: close`)
are written.  The mutated request is returned alongside the response, since
the Go code writes through the shared map. -/
def HandleNotFound (now : String) (req : Request) : Response × Request :=
  let h0 := req.header
  let h1 := mapSet h0 "Date" now
  let h2 := if req.close then mapSet h1 "Connection" "close" else h1
  ({ statusCode := 404, filePath := "", proto := "HTTP/1.1", hasRequest := false,
     header := h2 },
   { req with header := h2 })

/-- Function `HandleBadRequest` (file `unnamed/part_000`): status 400, fresh header
map with `Date` and `Connection: close`, empty body, nil request. -/
def HandleBadRequest (now : String) : Response :=
  let h := mapSet (mapSet [] "Date" now) "Connection" "close"
  { proto := "HTTP/1.1", statusCode := 400, filePath := "", header := h,
    hasRequest := false }

/-- Function `HandleOK` (file `unnamed/part_000`): status 200, fresh header map.
The content-type key is computed as `"." + strings.SplitN(path, ".", 2)[1]`;
when the path contains no `'.'`, `SplitN` yields a single element and the
index `[1]` is out of range, so the Go code panics — modelled as `none`.
`FormatTime` and `MIMETypeByExtension` are collaborators outside `src/`,
passed in as `now` (§4.3's `Date: now` is already formatted) and `mime`. -/
def HandleOK (fs : Fs) (mime : String → String) (now : String)
    (req : Request) (path : String) : Option Response :=
  match splitNChar path '.' 2 with
  | [_, afterDot] =>
    let h := mapSet [] "Date" now
    let h := mapSet h "Last-Modified" (fs.modTime path)
    let h := mapSet h "Content-Type" (mime ("." ++ afterDot))
    let h := mapSet h "Content-Length" (toString (fs.size path))
    let h := if req.close then mapSet h "Connection" "close" else h
    some { proto := req.proto, statusCode := 200, header := h, filePath := path,
           hasRequest := true }
  | _ => none

/-- The default-document expansion performed at the top of
`HandleGoodRequest` (file `unnamed/part_000`): a target ending in `"/"`
gets `"index.html"` appended. -/
def expandTarget (url : String) : String :=
  if goEndsWith url "/" then url ++ "index.html" else url

/-- Function `HandleGoodRequest` (file `unnamed/part_000`): expand the target, clean
`DocRoot + URL`, reject paths that lose the document-root prefix, then
classify against the filesystem.  The function mutates `req.URL` (the
expansion writes back into the request) and `HandleNotFound` mutates
`req.Header`, so the possibly-updated request is returned too.  A `none`
response is `HandleOK`'s panic. -/
def HandleGoodRequest (root : String) (fs : Fs) (mime : String → String)
    (now : String) (req : Request) : Option Response × Request :=
  let req := { req with url := expandTarget req.url }
  if req.url == "" then
    let (r, req') := HandleNotFound now req
    (some r, req')
  else
    let path := goClean (root ++ req.url)
    if !goStartsWith path root then
      let (r, req') := HandleNotFound now req
      (some r, req')
    else if !fs.fileExists path then
      let (r, req') := HandleNotFound now req
      (some r, req')
    else if fs.isDir path then
      let (r, req') := HandleNotFound now req
      (some r, req')
    else
      (HandleOK fs mime now req path, req)

/-- Observable actions of one connection handler, in order: responses
written to the connection, the final close, or a crash of the worker
(an unrecovered panic). -/
inductive ConnAction where
  | wrote (res : Response)
  | closed
  | panicked
deriving DecidableEq

/-- Function `HandleConnection` (file `unnamed/part_000`), per cycle: read a request;
on `io.EOF` close silently; on a timeout close silently if nothing was
received, else write a 400 response and close; on any other error write a
400 response and close; on success classify, write the response, and close
if the request asked to or the status is not 200, else loop.  The fuel only
bounds the number of cycles; each successful cycle consumes at least one
stream event, so `events.length + 1` fuel is always enough. -/
def HandleConnection (root : String) (fs : Fs) (mime : String → String)
    (now : String) : Nat → List ReadEvent → List ConnAction
  | 0, _ => []
  | fuel+1, events =>
    match ReadRequest events with
    | (.readErr .eof, _, _) => [.closed]
    | (.readErr .timeout, bytesReceived, _) =>
      if !bytesReceived then [.closed]
      else [.wrote (HandleBadRequest now), .closed]
    | (.readErr .other, _, _) => [.wrote (HandleBadRequest now), .closed]
    | (.protoErr _, _, _) => [.wrote (HandleBadRequest now), .closed]
    | (.ok req, _, rest) =>
      match HandleGoodRequest root fs mime now req with
      | (some res, req') =>
        .wrote res ::
          (if req'.close || res.statusCode != 200 then [.closed]
           else HandleConnection root fs mime now fuel rest)
      | (none, _) => [.panicked]

/-- A filesystem with no files at all. -/
def fsEmpty : Fs :=
  { fileExists := fun _ => false, isDir := fun _ => false,
    modTime := fun _ => "", size := fun _ => 0 }

/-- A filesystem consisting of exactly one regular file. -/
def fsOneFile (p : String) : Fs :=
  { fileExists := fun q => q == p, isDir := fun _ => false,
    modTime := fun _ => "MT", size := fun _ => 7 }

/-- A MIME collaborator that always answers the generic binary type. -/
def mimeDefault : String → String := fun _ => "application/octet-stream"

theorem HandleGoodRequest_ok200 :
    (HandleGoodRequest "/www" (fsOneFile "/www/index.html") mimeDefault "D"
      { method := "GET", url := "/", proto := "HTTP/1.1", header := [],
        host := "t", close := false }).1
    = some { proto := "HTTP/1.1", statusCode := 200,
             header := [("Date", "D"), ("Last-Modified", "MT"),
                        ("Content-Type", "application/octet-stream"),
                        ("Content-Length", "7")],
             filePath := "/www/index.html", hasRequest := true } := by decide

theorem HandleGoodRequest_missing404 :
    (HandleGoodRequest "/www" fsEmpty mimeDefault "D"
      { method := "GET", url := "/missing.html", proto := "HTTP/1.1",
        header := [], host := "t", close := false }).1.map Response.statusCode
    = some 404 := by decide

/-! ## Reference views of header lines

Syntactic functions on a raw header line, used to state claims about the
parser: the name and value around the first colon, the canonical key, the
left-trimmed value, validity, and the last-write-wins value of a given key
over a list of header lines. -/

/-- The part of a header line before its first colon (`""` if no colon). -/
def headerName (l : String) : String :=
  match splitOnceChar l ':' with
  | some (n, _) => n
  | none => ""

/-- The part of a header line after its first colon (`""` if no colon). -/
def headerRawVal (l : String) : String :=
  match splitOnceChar l ':' with
  | some (_, v) => v
  | none => ""

/-- The canonicalized key of a header line. -/
def headerKey (l : String) : String := CanonicalHeaderKey (headerName l)

/-- The left-trimmed value of a header line. -/
def headerVal (l : String) : String := trimLeftSpaces (headerRawVal l)

/-- Whether a (nonblank) header line passes all of `ReadRequest`'s header
checks: it has a colon, its name carries no edge spaces, is nonempty after
trimming, and contains only letters, digits and hyphens. -/
def validHeaderLine (l : String) : Bool :=
  match splitOnceChar l ':' with
  | none => false
  | some (n, _) =>
    !(goEndsWith n " " || goStartsWith n " ")
      && !((goTrimSpace n).length == 0)
      && !(n.toList.any hcharBad)

/-- The value of the last header line whose canonical key is `k`
(last write wins), if any. -/
def lastValFor (k : String) : List String → Option String
  | [] => none
  | l :: ls =>
    match lastValFor k ls with
    | some v => some v
    | none => if headerKey l == k then some (headerVal l) else none

/-- The last-written "Host" value of a list of header lines. -/
def lastHostVal (ls : List String) : Option String := lastValFor "Host" ls

/-- The last-written "Connection" value of a list of header lines. -/
def lastConnVal (ls : List String) : Option String := lastValFor "Connection" ls

/-- A well-shaped request stream: a request line, header lines, the blank
line ending the header block, and the rest of the stream. -/
def mkEvents (start : String) (ls : List String) (rest : List ReadEvent) :
    List ReadEvent :=
  .line start :: (ls.map ReadEvent.line ++ ReadEvent.line "" :: rest)

/-- The header map accumulated over a list of header lines. -/
def hdrFold (h : Hmap) (ls : List String) : Hmap :=
  ls.foldl (fun m l => mapSet m (headerKey l) (headerVal l)) h

/-- The host value accumulated over a list of header lines. -/
def hostFold (host : String) (ls : List String) : String :=
  ls.foldl (fun h l => if headerKey l == "Host" then headerVal l else h) host

/-- The TARGET field of a request line: the second of its (at most three)
space-separated fields. -/
def requestLineTarget (l : String) : String := (splitNChar l ' ' 3).getD 1 ""

/-! ## Map lemmas -/

theorem mapHas_nil (k : String) : mapHas [] k = false := rfl

theorem mapHas_cons (p : String × String) (rest : Hmap) (k : String) :
    mapHas (p :: rest) k = (p.1 == k || mapHas rest k) := by
  simp [mapHas]

theorem mapGet_cons (p : String × String) (rest : Hmap) (k : String) :
    mapGet (p :: rest) k = if p.1 == k then p.2 else mapGet rest k := by
  by_cases h : p.1 = k
  · simp [mapGet, List.find?_cons_of_pos, h]
  · have hf : List.find? (fun q => q.1 == k) (p :: rest)
        = List.find? (fun q => q.1 == k) rest :=
      List.find?_cons_of_neg _ (by simp [h])
    simp only [mapGet, hf, if_neg (by simp [h] : ¬(p.1 == k) = true)]

theorem mapHas_mapSet (m : Hmap) (k k' v : String) :
    mapHas (mapSet m k' v) k = (k' == k || mapHas m k) := by
  induction m with
  | nil => simp [mapSet, mapHas]
  | cons p rest ih =>
    by_cases hp : p.1 = k'
    · rw [mapSet, if_pos (by simp [hp]), mapHas_cons, mapHas_cons, hp]
      by_cases hk : k' = k <;> simp [hk]
    · rw [mapSet, if_neg (by simp [hp]), mapHas_cons, ih, mapHas_cons,
        Bool.or_left_comm]

theorem mapGet_mapSet_self (m : Hmap) (k v : String) :
    mapGet (mapSet m k v) k = v := by
  induction m with
  | nil => simp [mapSet, mapGet, List.find?]
  | cons p rest ih =>
    by_cases hp : p.1 = k
    · rw [mapSet, if_pos (by simp [hp]), mapGet_cons, if_pos (by simp)]
    · rw [mapSet, if_neg (by simp [hp]), mapGet_cons, if_neg (by simp [hp]), ih]

theorem mapGet_mapSet_ne (m : Hmap) (k k' v : String) (h : k' ≠ k) :
    mapGet (mapSet m k' v) k = mapGet m k := by
  induction m with
  | nil =>
    rw [mapSet, mapGet_cons, if_neg (by simp [h])]
  | cons p rest ih =>
    by_cases hp : p.1 = k'
    · rw [mapSet, if_pos (by simp [hp]), mapGet_cons, if_neg (by simp [h]),
        mapGet_cons, if_neg (by simp [hp ▸ h])]
    · rw [mapSet, if_neg (by simp [hp]), mapGet_cons, mapGet_cons, ih]

theorem mapHas_mapDel (m : Hmap) (k k' : String) :
    mapHas (mapDel m k') k = ((k != k') && mapHas m k) := by
  induction m with
  | nil => simp [mapDel, mapHas]
  | cons p rest ih =>
    by_cases hp : p.1 = k'
    · rw [mapDel, if_pos (by simp [hp]), ih, mapHas_cons]
      by_cases hk : k = k'
      · simp [hk]
      · have hne : (k != k') = true := bne_iff_ne.mpr hk
        have h2 : (p.1 == k) = false := by
          simp only [beq_eq_false_iff_ne, ne_eq]
          exact fun hc => hk ((hp.symm.trans hc).symm)
        rw [hne, h2]
        simp
    · rw [mapDel, if_neg (by simp [hp]), mapHas_cons, ih, mapHas_cons]
      by_cases hk : k = k'
      · have h2 : ¬p.1 = k := fun hc => hp (hk ▸ hc)
        simp [hk, hp, h2]
      · have hne : (k != k') = true := by simp [hk]
        rw [hne]
        simp

/-! ## Parser lemmas -/

theorem readHeaders_blank (rest : List ReadEvent) (hdr : Hmap) (host : String)
    (cc ch : Bool) :
    readHeaders (.line "" :: rest) hdr host cc ch = (.done hdr host cc ch, rest) := rfl

theorem readHeaders_step (l : String) (rest : List ReadEvent) (hdr : Hmap)
    (host : String) (cc ch : Bool) (hne : l ≠ "") (hv : validHeaderLine l = true) :
    readHeaders (.line l :: rest) hdr host cc ch =
      readHeaders rest (mapSet hdr (headerKey l) (headerVal l))
        (if headerKey l == "Host" then headerVal l else host)
        (cc || headerKey l == "Connection")
        (ch || headerKey l == "Host") := by
  cases hsp : splitOnceChar l ':' with
  | none =>
    rw [validHeaderLine, hsp] at hv
    exact absurd hv (by simp)
  | some nv =>
    obtain ⟨n, v⟩ := nv
    rw [validHeaderLine, hsp] at hv
    simp only [Bool.and_eq_true, Bool.not_eq_true'] at hv
    obtain ⟨⟨h1, h2⟩, h3⟩ := hv
    have hbl : (l == "") = false := by simp [hne]
    simp only [readHeaders, hbl, Bool.false_eq_true, if_false, hsp, h1, h2, h3,
      headerKey, headerName, headerVal, headerRawVal]

theorem readHeaders_invalid (l : String) (rest : List ReadEvent) (hdr : Hmap)
    (host : String) (cc ch : Bool) (hne : l ≠ "") (hv : validHeaderLine l = false) :
    ∃ e, readHeaders (.line l :: rest) hdr host cc ch = (.perr e, rest) := by
  have hbl : (l == "") = false := by simp [hne]
  cases hsp : splitOnceChar l ':' with
  | none =>
    exact ⟨.badHeader, by simp only [readHeaders, hbl, Bool.false_eq_true, if_false, hsp]⟩
  | some nv =>
    obtain ⟨n, v⟩ := nv
    simp only [validHeaderLine, hsp] at hv
    by_cases c1 : (goEndsWith n " " || goStartsWith n " ") = true
    · exact ⟨.headerEdgeSpace,
        by simp only [readHeaders, hbl, Bool.false_eq_true, if_false, hsp, c1, if_true]⟩
    · rw [Bool.not_eq_true] at c1
      by_cases c2 : ((goTrimSpace n).length == 0) = true
      · exact ⟨.headerEmptyName,
          by simp only [readHeaders, hbl, Bool.false_eq_true, if_false, hsp, c1, c2,
            Bool.false_eq_true, if_false, if_true]⟩
      · rw [Bool.not_eq_true] at c2
        by_cases c3 : (n.toList.any hcharBad) = true
        · exact ⟨.headerBadChar,
            by simp only [readHeaders, hbl, Bool.false_eq_true, if_false, hsp, c1, c2, c3,
              Bool.false_eq_true, if_false, if_true]⟩
        · rw [Bool.not_eq_true] at c3
          rw [c1, c2, c3] at hv
          simp at hv

theorem readHeaders_cc_mono (events : List ReadEvent) :
    ∀ hdr host ch h' ho' cc' ch' r',
      readHeaders events hdr host true ch = (.done h' ho' cc' ch', r') → cc' = true := by
  induction events with
  | nil => intro hdr host ch h' ho' cc' ch' r' heq; simp [readHeaders] at heq
  | cons e rest ih =>
    intro hdr host ch h' ho' cc' ch' r' heq
    cases e with
    | fail got k => simp [readHeaders] at heq
    | line l =>
      by_cases hbl : l = ""
      · subst hbl
        rw [readHeaders_blank] at heq
        injection heq with h1 h2
        injection h1 with e1 e2 e3 e4
        exact e3.symm
      · cases hvl : validHeaderLine l with
        | true =>
          rw [readHeaders_step l rest hdr host true ch hbl hvl, Bool.true_or] at heq
          exact ih _ _ _ _ _ _ _ _ heq
        | false =>
          obtain ⟨e, he⟩ := readHeaders_invalid l rest hdr host true ch hbl hvl
          rw [he] at heq
          simp at heq

theorem readHeaders_conn_absent (events : List ReadEvent) :
    ∀ hdr host cc ch h' ho' ch' r',
      readHeaders events hdr host cc ch = (.done h' ho' false ch', r') →
      mapHas hdr "Connection" = false → mapHas h' "Connection" = false := by
  induction events with
  | nil => intro hdr host cc ch h' ho' ch' r' heq habs; simp [readHeaders] at heq
  | cons e rest ih =>
    intro hdr host cc ch h' ho' ch' r' heq habs
    cases e with
    | fail got k => simp [readHeaders] at heq
    | line l =>
      by_cases hbl : l = ""
      · subst hbl
        rw [readHeaders_blank] at heq
        injection heq with h1 h2
        injection h1 with e1 e2 e3 e4
        exact e1 ▸ habs
      · cases hvl : validHeaderLine l with
        | true =>
          rw [readHeaders_step l rest hdr host cc ch hbl hvl] at heq
          by_cases hkey : headerKey l = "Connection"
          · rw [show (headerKey l == "Connection") = true by simp [hkey],
              Bool.or_true] at heq
            have := readHeaders_cc_mono rest _ _ _ _ _ _ _ _ heq
            simp at this
          · rw [show (headerKey l == "Connection") = false by simp [hkey]] at heq
            refine ih _ _ _ _ _ _ _ _ (by simpa using heq) ?_
            rw [mapHas_mapSet, habs, show (headerKey l == "Connection") = false by
              simp [hkey]]
            rfl
        | false =>
          obtain ⟨e, he⟩ := readHeaders_invalid l rest hdr host cc ch hbl hvl
          rw [he] at heq
          simp at heq

theorem parseStartLine_target (l m t p : String)
    (h : parseStartLine l = .ok (m, t, p)) : t = requestLineTarget l := by
  simp only [parseStartLine] at h
  split at h
  · exact absurd h (by simp)
  · split at h
    · exact absurd h (by simp)
    · split at h
      · exact absurd h (by simp)
      · split at h
        · exact absurd h (by simp)
        · split at h
          · exact absurd h (by simp)
          · split at h
            · exact absurd h (by simp)
            · injection h with h1
              rw [requestLineTarget]
              exact congrArg (·.2.1) h1.symm

/-- Inversion of a successful `ReadRequest`: the stream starts with a valid
request line, the header loop reached the blank line, `checkHost` was set,
and the request's fields are exactly what the final section of `ReadRequest`
computes. -/
theorem ReadRequest_ok (events : List ReadEvent) (req : Request) (b : Bool)
    (r' : List ReadEvent) (h : ReadRequest events = (.ok req, b, r')) :
    ∃ l rest hdr host cc,
      events = .line l :: rest ∧
      parseStartLine l = .ok (req.method, req.url, req.proto) ∧
      readHeaders rest [] "" false false = (.done hdr host cc true, r') ∧
      req.host = host ∧
      req.close = (if cc then mapGet hdr "Connection" == "close" else false) ∧
      req.header = mapDel (if cc then mapDel hdr "Connection" else hdr) "Host" ∧
      b = true := by
  cases events with
  | nil => exact absurd h (by simp [ReadRequest])
  | cons e rest =>
    cases e with
    | fail got k => exact absurd h (by simp [ReadRequest])
    | line l =>
      rw [ReadRequest] at h
      cases hsl : parseStartLine l with
      | error e => rw [hsl] at h; simp at h
      | ok mtp =>
        obtain ⟨m, t, p⟩ := mtp
        rw [hsl] at h
        rcases hrh : readHeaders rest [] "" false false with ⟨o, r2⟩
        rw [hrh] at h
        cases o with
        | ioErr k => simp at h
        | perr e => simp at h
        | done hdr host cc ch =>
          cases ch with
          | false => simp at h
          | true =>
            simp only [if_true] at h
            injection h with hA hB
            injection hB with hBb hBr
            injection hA with hreq
            subst hreq hBb hBr
            exact ⟨l, rest, hdr, host, cc, rfl, hsl, hrh, rfl, rfl, rfl, rfl⟩

/-- Running the header loop over well-formed header lines followed by the
blank line: the loop reaches the blank line with the folded state. -/
theorem readHeaders_lines (ls : List String) :
    ∀ (rest : List ReadEvent) (hdr : Hmap) (host : String) (cc ch : Bool),
      (∀ l ∈ ls, l ≠ "" ∧ validHeaderLine l = true) →
      readHeaders (ls.map ReadEvent.line ++ ReadEvent.line "" :: rest) hdr host cc ch =
        (.done (hdrFold hdr ls) (hostFold host ls)
          (cc || ls.any (fun l => headerKey l == "Connection"))
          (ch || ls.any (fun l => headerKey l == "Host")), rest) := by
  induction ls with
  | nil =>
    intro rest hdr host cc ch hgood
    simp [readHeaders_blank, hdrFold, hostFold]
  | cons l ls ih =>
    intro rest hdr host cc ch hgood
    obtain ⟨hne, hv⟩ := hgood l (by simp)
    rw [List.map_cons, List.cons_append, readHeaders_step l _ hdr host cc ch hne hv,
      ih _ _ _ _ _ (fun x hx => hgood x (by simp [hx]))]
    simp [hdrFold, hostFold, Bool.or_assoc]

/-- Inversion: if the header loop run over nonblank lines plus a blank line
reached the blank line, then every line was valid and the final state is the
folded state. -/
theorem readHeaders_lines_inv (ls : List String) :
    ∀ (rest : List ReadEvent) (hdr : Hmap) (host : String) (cc ch : Bool)
      h' ho' cc' ch' r',
      (∀ l ∈ ls, l ≠ "") →
      readHeaders (ls.map ReadEvent.line ++ ReadEvent.line "" :: rest) hdr host cc ch
        = (.done h' ho' cc' ch', r') →
      (∀ l ∈ ls, validHeaderLine l = true) ∧ r' = rest ∧ h' = hdrFold hdr ls ∧
        ho' = hostFold host ls ∧
        cc' = (cc || ls.any (fun l => headerKey l == "Connection")) ∧
        ch' = (ch || ls.any (fun l => headerKey l == "Host")) := by
  induction ls with
  | nil =>
    intro rest hdr host cc ch h' ho' cc' ch' r' hne heq
    rw [List.map_nil, List.nil_append, readHeaders_blank] at heq
    injection heq with h1 h2
    injection h1 with e1 e2 e3 e4
    exact ⟨by simp, h2.symm, e1.symm, e2.symm, by simp [e3.symm, hdrFold, hostFold],
      by simp [e4.symm]⟩
  | cons l ls ih =>
    intro rest hdr host cc ch h' ho' cc' ch' r' hne heq
    have hnl : l ≠ "" := hne l (by simp)
    cases hvl : validHeaderLine l with
    | false =>
      obtain ⟨e, he⟩ := readHeaders_invalid l _ hdr host cc ch hnl hvl
      rw [List.map_cons, List.cons_append] at heq
      rw [he] at heq
      simp at heq
    | true =>
      rw [List.map_cons, List.cons_append,
        readHeaders_step l _ hdr host cc ch hnl hvl] at heq
      obtain ⟨hvs, hr, hh, hho, hcc, hch⟩ :=
        ih _ _ _ _ _ _ _ _ _ _ (fun x hx => hne x (by simp [hx])) heq
      refine ⟨?_, hr, ?_, ?_, ?_, ?_⟩
      · intro x hx
        rcases List.mem_cons.mp hx with hx | hx
        · exact hx ▸ hvl
        · exact hvs x hx
      · simpa [hdrFold] using hh
      · simpa [hostFold] using hho
      · rw [hcc]; simp [Bool.or_assoc]
      · rw [hch]; simp [Bool.or_assoc]

/-- The folded host value is the last-written "Host" value. -/
theorem hostFold_lastVal (ls : List String) :
    ∀ host, hostFold host ls = (lastValFor "Host" ls).getD host := by
  induction ls with
  | nil => intro host; rfl
  | cons l ls ih =>
    intro host
    rw [hostFold, List.foldl_cons, show
      List.foldl (fun h l => if headerKey l == "Host" then headerVal l else h)
        (if headerKey l == "Host" then headerVal l else host) ls
      = hostFold (if headerKey l == "Host" then headerVal l else host) ls from rfl,
      ih, lastValFor]
    cases hl : lastValFor "Host" ls with
    | some v => rfl
    | none =>
      cases hk : headerKey l == "Host" with
      | true => rfl
      | false => rfl

/-- Reading a key from the folded header map yields the last-written value
for that key, defaulting to the underlying map's value. -/
theorem mapGet_hdrFold (ls : List String) :
    ∀ (hdr : Hmap) (k : String),
      mapGet (hdrFold hdr ls) k = (lastValFor k ls).getD (mapGet hdr k) := by
  induction ls with
  | nil => intro hdr k; rfl
  | cons l ls ih =>
    intro hdr k
    rw [hdrFold, List.foldl_cons, show
      List.foldl (fun m l => mapSet m (headerKey l) (headerVal l))
        (mapSet hdr (headerKey l) (headerVal l)) ls
      = hdrFold (mapSet hdr (headerKey l) (headerVal l)) ls from rfl, ih, lastValFor]
    cases hl : lastValFor k ls with
    | some v => rfl
    | none =>
      by_cases hk : headerKey l = k
      · simp only [Option.getD]
        rw [show (headerKey l == k) = true by simp [hk], if_pos rfl]
        exact hk ▸ mapGet_mapSet_self hdr (headerKey l) (headerVal l)
      · simp only [Option.getD]
        rw [show (headerKey l == k) = false by simp [hk], if_neg (by simp)]
        exact mapGet_mapSet_ne hdr k (headerKey l) (headerVal l) hk

/-- Whether any line writes key `k` is whether a last-written value exists. -/
theorem any_lastVal (k : String) (ls : List String) :
    ls.any (fun l => headerKey l == k) = (lastValFor k ls).isSome := by
  induction ls with
  | nil => rfl
  | cons l ls ih =>
    rw [List.any_cons, ih, lastValFor]
    cases hl : lastValFor k ls with
    | some v => simp
    | none =>
      cases hk : headerKey l == k with
      | true => simp
      | false => simp

/-- A successfully parsed request stores neither "Host" nor "Connection" in
its generic header map. -/
theorem ReadRequest_ok_no_special (events : List ReadEvent) (req : Request)
    (b : Bool) (r' : List ReadEvent) (h : ReadRequest events = (.ok req, b, r')) :
    mapHas req.header "Host" = false ∧ mapHas req.header "Connection" = false := by
  obtain ⟨l, rest, hdr, host, cc, hev, hsl, hrh, hhost, hclose, hhdr, hb⟩ :=
    ReadRequest_ok events req b r' h
  constructor
  · rw [hhdr, mapHas_mapDel]
    simp
  · rw [hhdr, mapHas_mapDel]
    cases cc with
    | true => simp [mapHas_mapDel]
    | false =>
      have habs : mapHas hdr "Connection" = false :=
        readHeaders_conn_absent rest [] "" false false hdr host true r' hrh rfl
      simp [habs]

/-! ## Concrete fixtures used by witnesses and evaluation theorems -/

/-- A parsed request whose target escapes the document root. -/
def reqEscape : Request :=
  { method := "GET", url := "/../secret.txt", proto := "HTTP/1.1", header := [],
    host := "t", close := false }

/-- A parsed request for a missing file, with the close flag unset. -/
def reqMissingNoClose : Request :=
  { method := "GET", url := "/missing.html", proto := "HTTP/1.1", header := [],
    host := "test", close := false }

/-- The parse of `"GET / HTTP/1.1" / "Host: t"`. -/
def reqSlash : Request :=
  { method := "GET", url := "/", proto := "HTTP/1.1", header := [], host := "t",
    close := false }

/-- The parse of a request with Host, Connection and one misc header. -/
def reqMisc : Request :=
  { method := "GET", url := "/a", proto := "HTTP/1.1", header := [("Key1", "v1")],
    host := "h", close := true }

/-- The parse of a request with only a Host header. -/
def reqHostOnly : Request :=
  { method := "GET", url := "/a", proto := "HTTP/1.1", header := [], host := "h",
    close := false }

/-- A parsed request for an existing file whose path has no dot. -/
def reqMakefile : Request :=
  { method := "GET", url := "/Makefile", proto := "HTTP/1.1", header := [],
    host := "t", close := false }

/-! ## The claims -/

/-- C1: For every parsed request, if the canonicalized join of the document
root and the (possibly index.html-expanded) target is not prefixed by the
document root, `HandleGoodRequest` returns a 404 not-found response and
never a 200 response — for every filesystem, in particular regardless of
whether the joined path exists as a file. -/
theorem docRootEscapeGives404 (root : String) (fs : Fs) (mime : String → String)
    (now : String) (req : Request)
    (h : goStartsWith (goClean (root ++ expandTarget req.url)) root = false) :
    (HandleGoodRequest root fs mime now req).1.map Response.statusCode = some 404 ∧
    (HandleGoodRequest root fs mime now req).1.map Response.statusCode ≠ some 200 := by
  have key : (HandleGoodRequest root fs mime now req).1.map Response.statusCode
      = some 404 := by
    simp only [HandleGoodRequest]
    by_cases hz : expandTarget req.url = ""
    · simp [hz, HandleNotFound]
    · simp [hz, h, HandleNotFound]
  exact ⟨key, by rw [key]; simp⟩

/-- Witness for C1: the target `/../secret.txt` under document root
`/root/www` cleans to `/root/secret.txt`, which exists as a regular file in
the given filesystem; the classification is still 404, never 200. -/
theorem docRootEscapeGives404_witness :
    (HandleGoodRequest "/root/www" (fsOneFile "/root/secret.txt") mimeDefault "D"
        reqEscape).1.map Response.statusCode = some 404 ∧
    (HandleGoodRequest "/root/www" (fsOneFile "/root/secret.txt") mimeDefault "D"
        reqEscape).1.map Response.statusCode ≠ some 200 :=
  docRootEscapeGives404 "/root/www" (fsOneFile "/root/secret.txt") mimeDefault "D"
    reqEscape (by decide)

/-- C2 (code-bug evidence): a 404 triggered by a request whose close flag is
false carries a "Date" header but NO "Connection" header at all —
`HandleNotFound` (file `unnamed/part_000`) writes `Connection: close` only
inside `if req.Close`, while the claim requires it on every non-200 response
independently of the request's close flag. -/
theorem notFound404LacksConnectionClose :
    (HandleGoodRequest "/www" fsEmpty mimeDefault "D" reqMissingNoClose).1.map
        (fun r => (r.statusCode, mapHas r.header "Date", mapHas r.header "Connection"))
      = some (404, true, false) := by decide

/-- C3: in the connection state machine a cycle whose read fails with a
deadline-exceeded error after consuming bytes (`bytesConsumed = true`)
writes a bad-request response to the connection and then closes it — it
does not close silently, and the written response has status 400. -/
theorem timeoutWithBytesWrites400 (root : String) (fs : Fs)
    (mime : String → String) (now : String) (fuel : Nat)
    (events rest : List ReadEvent)
    (h : ReadRequest events = (.readErr .timeout, true, rest)) :
    HandleConnection root fs mime now (fuel + 1) events
      = [.wrote (HandleBadRequest now), .closed] ∧
    (HandleBadRequest now).statusCode = 400 := by
  constructor
  · simp [HandleConnection, h]
  · rfl

/-- Witness for C3: a request line followed by a timeout mid-request. -/
theorem timeoutWithBytesWrites400_witness :
    HandleConnection "/www" fsEmpty mimeDefault "D" 1
        [.line "GET /a.html HTTP/1.1", .fail "" .timeout]
      = [.wrote (HandleBadRequest "D"), .closed] ∧
    (HandleBadRequest "D").statusCode = 400 :=
  timeoutWithBytesWrites400 "/www" fsEmpty mimeDefault "D" 0
    [.line "GET /a.html HTTP/1.1", .fail "" .timeout] [] (by decide)

/-- C4: the parser stores the literal client-supplied TARGET field of the
request line — no default-document expansion happens in `ReadRequest` — and
`"index.html"` is appended only by the path-resolution step `expandTarget`
of `HandleGoodRequest`, for targets ending in `"/"`. -/
theorem parserStoresLiteralTarget :
    (∀ (l : String) (rest : List ReadEvent) (req : Request) (b : Bool)
        (r' : List ReadEvent),
      ReadRequest (.line l :: rest) = (.ok req, b, r') →
      req.url = requestLineTarget l) ∧
    (∀ u : String, goEndsWith u "/" = true → expandTarget u = u ++ "index.html") := by
  constructor
  · intro l rest req b r' h
    obtain ⟨l', rest', hdr, host, cc, hev, hsl, -, -, -, -, -⟩ :=
      ReadRequest_ok _ req b r' h
    injection hev with hl hrest
    injection hl with hl
    subst hl
    exact parseStartLine_target l req.method req.url req.proto hsl
  · intro u hu
    simp [expandTarget, hu]

/-- Witness for C4: `"GET / HTTP/1.1"` parses with the stored target `"/"`
(unexpanded), and path resolution expands `"/"` to `"/index.html"`. -/
theorem parserStoresLiteralTarget_witness :
    reqSlash.url = requestLineTarget "GET / HTTP/1.1" ∧
    expandTarget "/" = "/" ++ "index.html" :=
  ⟨parserStoresLiteralTarget.1 "GET / HTTP/1.1" [.line "Host: t", .line ""]
      reqSlash true [] (by decide),
   parserStoresLiteralTarget.2 "/" (by decide)⟩

/-- C5: the generic header map of every successfully parsed request contains
neither the key "Host" nor the key "Connection". -/
theorem headerMapExcludesHostConnection (events : List ReadEvent) (req : Request)
    (b : Bool) (r' : List ReadEvent) (h : ReadRequest events = (.ok req, b, r')) :
    mapHas req.header "Host" = false ∧ mapHas req.header "Connection" = false :=
  ReadRequest_ok_no_special events req b r' h

/-- Witness for C5: a parse that saw Host, Connection and a misc header. -/
theorem headerMapExcludesHostConnection_witness :
    mapHas reqMisc.header "Host" = false ∧
    mapHas reqMisc.header "Connection" = false :=
  headerMapExcludesHostConnection
    [.line "GET /a HTTP/1.1", .line "Host: h", .line "Connection: close",
     .line "Key1: v1", .line ""] reqMisc true [] (by decide)

/-- C6: if the header block ends (the blank line is reached, i.e. every
header line is well formed) without any "Host" header, parsing fails with
the missing-host error and returns no request; conversely, every successful
parse of a well-shaped stream has read a Host header, whose last-written
value is stored in the request's host field. -/
theorem missingHostRejected :
    (∀ (start : String) (ls : List String) (rest : List ReadEvent) (m t p : String),
      parseStartLine start = .ok (m, t, p) →
      (∀ l ∈ ls, l ≠ "" ∧ validHeaderLine l = true) →
      lastHostVal ls = none →
      ReadRequest (mkEvents start ls rest) = (.protoErr .missingHost, true, rest)) ∧
    (∀ (start : String) (ls : List String) (rest r' : List ReadEvent)
        (req : Request) (b : Bool),
      (∀ l ∈ ls, l ≠ "") →
      ReadRequest (mkEvents start ls rest) = (.ok req, b, r') →
      lastHostVal ls = some req.host) := by
  constructor
  · intro start ls rest m t p hsl hgood hnone
    have hany : ls.any (fun l => headerKey l == "Host") = false := by
      rw [any_lastVal]
      rw [lastHostVal] at hnone
      rw [hnone]
      rfl
    simp only [mkEvents, ReadRequest, hsl,
      readHeaders_lines ls rest [] "" false false hgood]
    simp [hany]
  · intro start ls rest r' req b hne h
    obtain ⟨l', rest2, hdr, host, cc, hev, hsl, hrh, hhost, -, -, -⟩ :=
      ReadRequest_ok _ req b r' h
    rw [mkEvents] at hev
    injection hev with hl hrest
    rw [← hrest] at hrh
    obtain ⟨-, -, -, hho, -, hch⟩ :=
      readHeaders_lines_inv ls rest [] "" false false hdr host cc true r' hne hrh
    rw [Bool.false_or] at hch
    have hany : ls.any (fun l => headerKey l == "Host") = true := hch.symm
    rw [any_lastVal] at hany
    rw [lastHostVal]
    cases hlv : lastValFor "Host" ls with
    | none => rw [hlv] at hany; simp at hany
    | some v =>
      rw [hhost, hho, hostFold_lastVal, hlv]
      rfl

/-- Witness for C6: a header block without Host is rejected with the
missing-host error, and a successful parse stores the Host value. -/
theorem missingHostRejected_witness :
    ReadRequest (mkEvents "GET /a HTTP/1.1" ["Key1: v"] [])
      = (.protoErr .missingHost, true, []) ∧
    lastHostVal ["Host: h"] = some reqHostOnly.host :=
  ⟨missingHostRejected.1 "GET /a HTTP/1.1" ["Key1: v"] [] "GET" "/a" "HTTP/1.1"
      (by rfl) (by decide) (by decide),
   missingHostRejected.2 "GET /a HTTP/1.1" ["Host: h"] [] [] reqHostOnly true
      (by decide) (by decide)⟩

/-- C7: for every successful parse, the close flag is true iff a
"Connection" header was present and its left-trimmed, last-written value
(under canonicalized last-write-wins lookup) is exactly `"close"`; a value
with trailing whitespace is not `"close"`, so it yields false.  And whenever
a Connection header was present it is removed: the generic map never has
the key. -/
theorem closeFlagIffConnectionClose (start : String) (ls : List String)
    (rest r' : List ReadEvent) (req : Request) (b : Bool)
    (hne : ∀ l ∈ ls, l ≠ "")
    (h : ReadRequest (mkEvents start ls rest) = (.ok req, b, r')) :
    ((req.close = true) ↔ lastConnVal ls = some "close") ∧
    mapHas req.header "Connection" = false := by
  refine ⟨?_, (ReadRequest_ok_no_special _ req b r' h).2⟩
  obtain ⟨l', rest2, hdr, host, cc, hev, hsl, hrh, hhost, hclose, hhdr, hb⟩ :=
    ReadRequest_ok _ req b r' h
  rw [mkEvents] at hev
  injection hev with hl hrest
  rw [← hrest] at hrh
  obtain ⟨-, -, hh, -, hcc, -⟩ :=
    readHeaders_lines_inv ls rest [] "" false false hdr host cc true r' hne hrh
  rw [Bool.false_or] at hcc
  rw [lastConnVal]
  cases hlv : lastValFor "Connection" ls with
  | none =>
    have hccf : cc = false := by rw [hcc, any_lastVal, hlv]; rfl
    rw [hclose, hccf]
    simp
  | some v =>
    have hcct : cc = true := by rw [hcc, any_lastVal, hlv]; rfl
    rw [hclose, hcct, hh, mapGet_hdrFold, hlv]
    simp [Option.getD]

/-- Witness for C7: `"Connection: close"` (single leading space trimmed)
yields a true close flag, and the key is absent from the stored map. -/
theorem closeFlagIffConnectionClose_witness :
    ((reqMisc.close = true) ↔
      lastConnVal ["Host: h", "Connection: close", "Key1: v1"] = some "close") ∧
    mapHas reqMisc.header "Connection" = false :=
  closeFlagIffConnectionClose "GET /a HTTP/1.1"
    ["Host: h", "Connection: close", "Key1: v1"] [] [] reqMisc true
    (by decide) (by decide)

/-- C8 (amended): `bytesConsumed` is true iff at least one complete line was
successfully read in this cycle — the stream's first read yielded a line —
or the very first read failed after having consumed some bytes (its partial
line is nonempty).  In particular it is true on every successful parse,
true on any failure after the request line, and false when the first read
fails having consumed nothing. -/
theorem bytesConsumedIffBytesRead (events : List ReadEvent) :
    ((ReadRequest events).2.1 = true) ↔
      ((∃ l, events.head? = some (.line l)) ∨
       (∃ got k, events.head? = some (.fail got k) ∧ got ≠ "")) := by
  cases events with
  | nil => simp [ReadRequest]
  | cons e rest =>
    cases e with
    | fail got k => simp [ReadRequest]
    | line l =>
      simp only [List.head?_cons]
      constructor
      · intro _
        exact Or.inl ⟨l, rfl⟩
      · intro _
        rw [ReadRequest]
        cases hsl : parseStartLine l with
        | error e => simp
        | ok mtp =>
          obtain ⟨m, t, p⟩ := mtp
          rcases hrh : readHeaders rest [] "" false false with ⟨o, r2⟩
          cases o with
          | ioErr k => simp
          | perr e => simp
          | done hdr host cc ch => cases ch <;> simp

/-- C8 counterexample: on a stream whose very first read fails mid-line
having already consumed the byte "G", `ReadRequest` reports
`bytesConsumed = true` although no line was successfully read — refuting
"true if and only if at least one line was successfully read". -/
theorem bytesConsumedNotLineIff :
    ¬ (((ReadRequest [ReadEvent.fail "G" IOKind.timeout]).2.1 = true) ↔
        (∃ l, ([ReadEvent.fail "G" IOKind.timeout] : List ReadEvent).head?
          = some (.line l))) := by
  intro hiff
  obtain ⟨l, hl⟩ := hiff.mp (by decide)
  simp at hl

/-- Witness for C8's amended statement, at the same concrete stream. -/
theorem bytesConsumedIffBytesRead_witness :
    ((ReadRequest [ReadEvent.fail "G" IOKind.timeout]).2.1 = true) ↔
      ((∃ l, ([ReadEvent.fail "G" IOKind.timeout] : List ReadEvent).head?
          = some (.line l)) ∨
       (∃ got k, ([ReadEvent.fail "G" IOKind.timeout] : List ReadEvent).head?
          = some (.fail got k) ∧ got ≠ "")) :=
  bytesConsumedIffBytesRead [ReadEvent.fail "G" IOKind.timeout]

/-- C9 (code-bug evidence): the not-found branch does NOT build a fresh
header map and does NOT leave the request's map unchanged: after
classifying a missing file, the request's header map (initially empty) has
gained a "Date" key, and the response's header map is exactly the request's
mutated map — `HandleNotFound` (file `unnamed/part_000`) aliases
`res.Header = req.Header` and writes through it. -/
theorem notFoundMutatesRequestHeader :
    ((HandleGoodRequest "/www" fsEmpty mimeDefault "D" reqMissingNoClose).2.header
        ≠ reqMissingNoClose.header) ∧
    mapHas (HandleGoodRequest "/www" fsEmpty mimeDefault "D"
        reqMissingNoClose).2.header "Date" = true ∧
    (HandleGoodRequest "/www" fsEmpty mimeDefault "D" reqMissingNoClose).1.map
        Response.header
      = some (HandleGoodRequest "/www" fsEmpty mimeDefault "D"
          reqMissingNoClose).2.header := by decide

/-- C10 (code-bug evidence): serving an existing regular file whose full
path contains no '.' reaches the out-of-range index in
`"." + strings.SplitN(path, ".", 2)[1]` — `SplitN` yields one element, so
`HandleOK` panics (modelled as `none`): building the ok response is not
total in the served file path. -/
theorem handleOKPanicsOnDotlessPath :
    (HandleGoodRequest "/www" (fsOneFile "/www/Makefile") mimeDefault "D"
        reqMakefile).1 = none := by decide
